import Mathlib

/-!
# Verification of the NTLMSSP Challenge-message codec (type2.go)

A shallow embedding of the `ChallengeMsg` entity of the go-ntlmssp
repository: the 48-byte fixed header plus variable payload, its
little/big-endian encoder `Marshal`, the decoder `UnMarshal`, and the
single-shot mutators `SetTargetName`, `SetTargetInfo`,
`SetServerChallenge`.

Modelling conventions:
* bytes are natural numbers (values below 256 wherever the Go program
  holds a `byte`); Go `uint16`/`uint32` arithmetic is `Nat` arithmetic
  with explicit reduction modulo 2^16 / 2^32 at each point where the Go
  types truncate;
* Go run-time panics (explicit `panic` calls and slice-bounds panics)
  are modelled by `Option`: `none` means the call faults and returns no
  message;
* the Go source reads multi-byte integers through
  `unsafe.Pointer` reinterpretation of the in-memory representation;
  per the wire layout of the specification the host order is
  little-endian, so the embedding emits little-endian bytes;
* `rand.Read` is modelled by an explicit entropy parameter;
* a Go `map[string]interface{}` argument is modelled as an association
  list (Go map iteration order is unspecified; the encoder's per-entry
  behaviour is order-independent).
-/

namespace Ntlmssp

/-- Start of the payload region: size of the fixed header (type2.go line 14). -/
def ChallengeMsgPayloadOffset : Nat := 48

/-- Modelled from the spec: the unicode-charset negotiate flag; src line 146
tests `cm.NegotiateFlags&1` for unicode, fixing the value 1. The constant's
defining file is not part of the sources. -/
def NEGOTIATE_UNICODE_CHARSET : Nat := 1

/-- Modelled from the spec: the target-info-present negotiate flag
(standard NTLM bit 0x00800000); its defining file is not in the sources. -/
def NEGOTIATE_TARGET_INFO : Nat := 8388608

/-- Modelled from the spec: the version-present negotiate flag
(standard NTLM bit 0x02000000); its defining file is not in the sources. -/
def NEGOTIATE_VERSION : Nat := 33554432

/-- The ChallengeMsg structure (type2.go lines 16-37).  Fixed byte arrays
are byte lists of length 8 (recorded by `ChallengeMsg.WF`);
`offset` is the internal write cursor. -/
structure ChallengeMsg where
  Signature : List Nat
  MessageType : Nat
  TargetNameLen : Nat
  TargetNameMaxLen : Nat
  TargetNameBufferOffset : Nat
  NegotiateFlags : Nat
  ServerChallenge : List Nat
  Reserved : List Nat
  TargetInfoLen : Nat
  TargetInfoMaxLen : Nat
  TargetInfoBufferOffset : Nat
  Payload : List Nat
  offset : Nat
deriving DecidableEq, Repr

/-- Well-formedness: array fields have their Go array lengths and the
integer fields fit their Go machine types. -/
def ChallengeMsg.WF (m : ChallengeMsg) : Prop :=
  m.Signature.length = 8 ∧ m.ServerChallenge.length = 8 ∧ m.Reserved.length = 8 ∧
  m.MessageType < 4294967296 ∧ m.NegotiateFlags < 4294967296 ∧
  m.TargetNameLen < 65536 ∧ m.TargetNameMaxLen < 65536 ∧
  m.TargetNameBufferOffset < 4294967296 ∧
  m.TargetInfoLen < 65536 ∧ m.TargetInfoMaxLen < 65536 ∧
  m.TargetInfoBufferOffset < 4294967296

instance (m : ChallengeMsg) : Decidable m.WF := by
  unfold ChallengeMsg.WF; infer_instance

/-- Little-endian bytes of a 16-bit value (the in-memory representation read
by the unsafe pointer casts in Marshal, type2.go lines 79-80, 87-88). -/
def u16le (x : Nat) : List Nat := [x % 256, x / 256 % 256]

/-- Little-endian bytes of a 32-bit value. -/
def u32le (x : Nat) : List Nat :=
  [x % 256, x / 256 % 256, x / 65536 % 256, x / 16777216 % 256]

/-- Go bits.ReverseBytes16 on a 16-bit value. -/
def rev16 (x : Nat) : Nat := x / 256 % 256 + x % 256 * 256

/-- Go bits.ReverseBytes32 on a 32-bit value. -/
def rev32 (x : Nat) : Nat :=
  x / 16777216 % 256 + x / 65536 % 256 * 256 + x / 256 % 256 * 65536 +
    x % 256 * 16777216

/-- Modelled from the spec: helper `bytes2Uint` (its defining file is not in
the sources); little-endian integer decoding for mode character < as used by
UnMarshal (spec section 4.3 step 1). -/
def bytes2Uint (bs : List Nat) (endian : Char) : Nat :=
  if endian = '<' then bs.foldr (fun b acc => b + 256 * acc) 0
  else bs.foldl (fun acc b => 256 * acc + b) 0

/-- Modelled from the spec: helper `encodeUTF16LE` (its defining file is not
in the sources); UTF-16LE encoding of a byte string doubles the length,
every byte followed by a zero byte (spec sections 4.2/4.3). -/
def encodeUTF16LE (bs : List Nat) : List Nat :=
  bs.foldr (fun b acc => b :: 0 :: acc) []

/-- The field transformation applied by Marshal's big-endian branch
(type2.go lines 62-73): byte-reverse exactly the integer fields. -/
def marshalFields (cm : ChallengeMsg) (endian : Char) : ChallengeMsg :=
  if endian = '>' then
    { cm with
      MessageType := rev32 cm.MessageType
      NegotiateFlags := rev32 cm.NegotiateFlags
      TargetNameLen := rev16 cm.TargetNameLen
      TargetNameMaxLen := rev16 cm.TargetNameMaxLen
      TargetNameBufferOffset := rev32 cm.TargetNameBufferOffset
      TargetInfoLen := rev16 cm.TargetInfoLen
      TargetInfoMaxLen := rev16 cm.TargetInfoMaxLen
      TargetInfoBufferOffset := rev32 cm.TargetInfoBufferOffset }
  else cm

/-- Marshal (type2.go lines 60-93): header fields in wire order followed by
the payload.  The receiver is a value receiver; the big-endian branch
mutates only the local copy, captured by `marshalFields`. -/
def marshal (cm : ChallengeMsg) (endian : Char) : List Nat :=
  let c := marshalFields cm endian
  c.Signature ++ u32le c.MessageType ++
    u16le c.TargetNameLen ++ u16le c.TargetNameMaxLen ++
    u32le c.TargetNameBufferOffset ++
    u32le c.NegotiateFlags ++ c.ServerChallenge ++ c.Reserved ++
    u16le c.TargetInfoLen ++ u16le c.TargetInfoMaxLen ++
    u32le c.TargetInfoBufferOffset ++ c.Payload

/-- The body of Marshal as a state transformer on the local receiver copy:
first component is the local `cm` after the big-endian field reversal,
second the produced bytes. -/
def marshalBody (cm : ChallengeMsg) (endian : Char) : ChallengeMsg × List Nat :=
  (marshalFields cm endian, marshal cm endian)

/-- A call `cm.Marshal(endian)` as seen by the caller: Go passes the
receiver by value (`func (cm ChallengeMsg) Marshal`), so the caller's
message is the unmodified `cm` and only the bytes escape. -/
def goCallMarshal (cm : ChallengeMsg) (endian : Char) : ChallengeMsg × List Nat :=
  (cm, (marshalBody cm endian).2)

/-- The payload length UnMarshal computes from the decoded header fields
(type2.go lines 112-122), read off the raw input bytes: target-name length
when its offset and length are both nonzero, plus the same for target
info, plus 8 when the version flag is set. -/
def headerPlen (bs : List Nat) : Nat :=
  (if bytes2Uint ((bs.drop 16).take 4) '<' ≠ 0 ∧
      bytes2Uint ((bs.drop 12).take 2) '<' ≠ 0 then
      bytes2Uint ((bs.drop 12).take 2) '<' else 0) +
  (if bytes2Uint ((bs.drop 44).take 4) '<' ≠ 0 ∧
      bytes2Uint ((bs.drop 40).take 2) '<' ≠ 0 then
      bytes2Uint ((bs.drop 40).take 2) '<' else 0) +
  (if bytes2Uint ((bs.drop 20).take 4) '<' &&& NEGOTIATE_VERSION ≠ 0 then 8 else 0)

/-- UnMarshal (type2.go lines 95-126).  All header fields are decoded
little-endian, the cursor is set to 48 (line 110), the payload length is
computed from the decoded fields (`headerPlen`), and that many bytes are
copied from position 48.  Go slice-bounds panics on truncated input
(shorter than the 48-byte header, or than header plus computed payload)
are `none`. -/
def unMarshal (bs : List Nat) : Option ChallengeMsg :=
  if bs.length < 48 then none
  else if bs.length < 48 + headerPlen bs then none
  else some {
    Signature := bs.take 8
    MessageType := bytes2Uint ((bs.drop 8).take 4) '<'
    TargetNameLen := bytes2Uint ((bs.drop 12).take 2) '<'
    TargetNameMaxLen := bytes2Uint ((bs.drop 14).take 2) '<'
    TargetNameBufferOffset := bytes2Uint ((bs.drop 16).take 4) '<'
    NegotiateFlags := bytes2Uint ((bs.drop 20).take 4) '<'
    ServerChallenge := (bs.drop 24).take 8
    Reserved := (bs.drop 32).take 8
    TargetInfoLen := bytes2Uint ((bs.drop 40).take 2) '<'
    TargetInfoMaxLen := bytes2Uint ((bs.drop 42).take 2) '<'
    TargetInfoBufferOffset := bytes2Uint ((bs.drop 44).take 4) '<'
    Payload := (bs.drop 48).take (headerPlen bs)
    offset := ChallengeMsgPayloadOffset }

/-- The payload length UnMarshal would compute for a message whose header
fields are those of `m` (the consistency condition of round-tripping). -/
def expectedPlen (m : ChallengeMsg) : Nat :=
  (if m.TargetNameBufferOffset ≠ 0 ∧ m.TargetNameLen ≠ 0 then m.TargetNameLen else 0) +
  (if m.TargetInfoBufferOffset ≠ 0 ∧ m.TargetInfoLen ≠ 0 then m.TargetInfoLen else 0) +
  (if m.NegotiateFlags &&& NEGOTIATE_VERSION ≠ 0 then 8 else 0)

/-- The empty construction branch of NewChallengeMsg (type2.go lines 130-133). -/
def emptyChallengeMsg : ChallengeMsg where
  Signature := [78, 84, 76, 77, 83, 83, 80, 0]
  MessageType := 2
  TargetNameLen := 0
  TargetNameMaxLen := 0
  TargetNameBufferOffset := 0
  NegotiateFlags := 0
  ServerChallenge := [0, 0, 0, 0, 0, 0, 0, 0]
  Reserved := [0, 0, 0, 0, 0, 0, 0, 0]
  TargetInfoLen := 0
  TargetInfoMaxLen := 0
  TargetInfoBufferOffset := 0
  Payload := []
  offset := ChallengeMsgPayloadOffset

/-- NewChallengeMsg (type2.go lines 128-138): nil argument builds the empty
message, otherwise the bytes are decoded. -/
def newChallengeMsg : Option (List Nat) → Option ChallengeMsg
  | none => some emptyChallengeMsg
  | some bs => unMarshal bs

/-- SetTargetName (type2.go lines 152-170).  Faults (`none`) when the
recorded target-name length is nonzero; `uint16` truncation of the length
and `uint32` cursor arithmetic are explicit. -/
def setTargetName (cm : ChallengeMsg) (tname : List Nat) : Option ChallengeMsg :=
  if cm.TargetNameLen ≠ 0 then none
  else if cm.NegotiateFlags &&& NEGOTIATE_UNICODE_CHARSET ≠ 0 then
    let len := 2 * tname.length % 65536
    some { cm with
      TargetNameLen := len
      TargetNameMaxLen := len
      TargetNameBufferOffset := cm.offset
      Payload := cm.Payload ++ encodeUTF16LE tname
      offset := (cm.offset + len) % 4294967296 }
  else
    let len := tname.length % 65536
    some { cm with
      TargetNameLen := len
      TargetNameMaxLen := len
      TargetNameBufferOffset := cm.offset
      Payload := cm.Payload ++ tname
      offset := (cm.offset + len) % 4294967296 }

/-- A target-info attribute value: the Go argument holds
`interface{}` values that the encoder asserts to `string` (text
attributes) or `[]byte` (raw attributes). -/
inductive AVValue where
  | vstr (s : List Nat)
  | vbytes (b : List Nat)
deriving DecidableEq, Repr

/-- Modelled from the spec: the attribute-name to identifier table
`avIdsRev` (its defining file is not in the sources); names and identifiers
from spec section 6; unknown names map to 0. -/
def avIdsRev (k : String) : Nat :=
  if k = "MsvAvNbDomainName" then 1
  else if k = "MsvAvNbComputerName" then 2
  else if k = "MsvAvDnsDomainName" then 3
  else if k = "MsvAvDnsComputerName" then 4
  else if k = "MsvAvDnsTreeName" then 5
  else if k = "MsvAvFlags" then 6
  else if k = "MsvAvTimestamp" then 7
  else if k = "MsvAvSingleHost" then 8
  else if k = "MsvAvTargetName" then 9
  else if k = "MsvAvChannelBindings" then 10
  else 0

/-- The encoding loop of SetTargetInfo (type2.go lines 186-202): entries
with unknown keys are skipped; text attributes are re-encoded UTF-16LE
with a 2-byte little-endian length of twice the string length; raw
attributes (identifiers 6, 7, 8, 10) are copied verbatim; a failed type
assertion is a panic (`none`). -/
def encodeAVEntries : List (String × AVValue) → Option (List Nat)
  | [] => some []
  | (k, v) :: rest =>
    let id := avIdsRev k
    if id = 0 then encodeAVEntries rest
    else if id ≠ 6 ∧ id ≠ 7 ∧ id ≠ 8 ∧ id ≠ 10 then
      match v with
      | AVValue.vstr s =>
        let length := 2 * s.length
        (encodeAVEntries rest).map fun tail =>
          id :: 0 :: (length % 256) :: (length / 256 % 256) ::
            (encodeUTF16LE s ++ tail)
      | AVValue.vbytes _ => none
    else
      match v with
      | AVValue.vbytes b =>
        let length := b.length
        (encodeAVEntries rest).map fun tail =>
          id :: 0 :: (length % 256) :: (length / 256 % 256) :: (b ++ tail)
      | AVValue.vstr _ => none

/-- SetTargetInfo (type2.go lines 179-210): faults when the recorded
target-info length is nonzero, sets the target-info negotiate flag,
encodes the mapping, appends the 4-byte terminator, and records the
length/maxLength/offset triple with `uint16`/`uint32` truncation. -/
def setTargetInfo (cm : ChallengeMsg) (tinfo : List (String × AVValue)) :
    Option ChallengeMsg :=
  if cm.TargetInfoLen ≠ 0 then none
  else (encodeAVEntries tinfo).map fun body =>
    let bs := body ++ [0, 0, 0, 0]
    let len := bs.length % 65536
    { cm with
      NegotiateFlags := cm.NegotiateFlags ||| NEGOTIATE_TARGET_INFO
      TargetInfoLen := len
      TargetInfoMaxLen := len
      TargetInfoBufferOffset := cm.offset
      Payload := cm.Payload ++ bs
      offset := (cm.offset + len) % 4294967296 }

/-- SetServerChallenge (type2.go lines 220-226): a nil challenge draws 8
bytes from the entropy source, otherwise `copy` writes
`min 8 (length challenge)` bytes; there is no repeat guard and the call
never faults. -/
def setServerChallenge (cm : ChallengeMsg) (challenge : Option (List Nat))
    (randBytes : List Nat) : Option ChallengeMsg :=
  match challenge with
  | none => some { cm with ServerChallenge := randBytes.take 8 ++ cm.ServerChallenge.drop 8 }
  | some ch =>
    let k := min 8 ch.length
    some { cm with ServerChallenge := ch.take k ++ cm.ServerChallenge.drop k }

/-- The absent-field invariant of spec section 3: a length is zero exactly
when its offset is zero. -/
def lenOffInv (len off : Nat) : Prop := len = 0 ↔ off = 0

instance (len off : Nat) : Decidable (lenOffInv len off) := by
  unfold lenOffInv; infer_instance

/-- Half-open byte ranges do not overlap. -/
def rangesDisjoint (o1 l1 o2 l2 : Nat) : Prop := o1 + l1 ≤ o2 ∨ o2 + l2 ≤ o1

instance (o1 l1 o2 l2 : Nat) : Decidable (rangesDisjoint o1 l1 o2 l2) := by
  unfold rangesDisjoint; infer_instance

/-! ## Helper lemmas -/

/-- A list of length 8 is an explicit 8-element list. -/
theorem eight_struct : ∀ (l : List Nat), l.length = 8 →
    ∃ a b c d e f g k, l = [a, b, c, d, e, f, g, k]
  | [a, b, c, d, e, f, g, k], _ => ⟨a, b, c, d, e, f, g, k, rfl⟩

theorem bytes2Uint_u16le (x : Nat) : bytes2Uint (u16le x) '<' = x % 65536 := by
  simp [bytes2Uint, u16le]
  omega

theorem bytes2Uint_u32le (x : Nat) : bytes2Uint (u32le x) '<' = x % 4294967296 := by
  simp [bytes2Uint, u32le]
  omega

theorem u16le_bytes (a b : Nat) (ha : a < 256) (hb : b < 256) :
    u16le (a + b * 256) = [a, b] := by
  unfold u16le
  have e1 : (a + b * 256) % 256 = a := by omega
  have e2 : (a + b * 256) / 256 % 256 = b := by omega
  rw [e1, e2]

theorem u32le_bytes (a b c d : Nat) (ha : a < 256) (hb : b < 256)
    (hc : c < 256) (hd : d < 256) :
    u32le (a + b * 256 + c * 65536 + d * 16777216) = [a, b, c, d] := by
  unfold u32le
  have e1 : (a + b * 256 + c * 65536 + d * 16777216) % 256 = a := by omega
  have e2 : (a + b * 256 + c * 65536 + d * 16777216) / 256 % 256 = b := by omega
  have e3 : (a + b * 256 + c * 65536 + d * 16777216) / 65536 % 256 = c := by omega
  have e4 : (a + b * 256 + c * 65536 + d * 16777216) / 16777216 % 256 = d := by
    omega
  rw [e1, e2, e3, e4]

theorem u16le_rev16 (x : Nat) : u16le (rev16 x) = (u16le x).reverse := by
  have e : (u16le x).reverse = [x / 256 % 256, x % 256] := rfl
  rw [e]
  unfold rev16
  exact u16le_bytes _ _ (Nat.mod_lt _ (by norm_num)) (Nat.mod_lt _ (by norm_num))

theorem u32le_rev32 (x : Nat) : u32le (rev32 x) = (u32le x).reverse := by
  have e : (u32le x).reverse =
      [x / 16777216 % 256, x / 65536 % 256, x / 256 % 256, x % 256] := rfl
  rw [e]
  unfold rev32
  exact u32le_bytes _ _ _ _ (Nat.mod_lt _ (by norm_num))
    (Nat.mod_lt _ (by norm_num)) (Nat.mod_lt _ (by norm_num))
    (Nat.mod_lt _ (by norm_num))

theorem encodeUTF16LE_length (bs : List Nat) :
    (encodeUTF16LE bs).length = 2 * bs.length := by
  induction bs with
  | nil => rfl
  | cons b t ih => simp [encodeUTF16LE] at ih ⊢; omega

/-! ## Claims -/

/-- C10: Marshal is effect-free on the message: in either byte-order mode
(including the big-endian mode, whose field reversal acts on the local
value-receiver copy only) the caller's message is unchanged, and two
successive calls with the same mode return identical byte strings. -/
theorem marshal_effect_free_C10 (m : ChallengeMsg) (e : Char) :
    (goCallMarshal m e).1 = m ∧
    (goCallMarshal (goCallMarshal m e).1 e).2 = (goCallMarshal m e).2 :=
  ⟨rfl, rfl⟩

/-- C2 counterexample: the claim says SetServerChallenge faults when the
server challenge was already set; in the code it has no repeat guard, so a
second call on the same instance succeeds and silently overwrites. -/
theorem setServerChallenge_rerun_C2_cex :
    (setServerChallenge emptyChallengeMsg (some [1, 2, 3, 4, 5, 6, 7, 8]) []).bind
      (fun m1 => setServerChallenge m1 (some [9, 9, 9, 9, 9, 9, 9, 9]) []) =
    some { emptyChallengeMsg with ServerChallenge := [9, 9, 9, 9, 9, 9, 9, 9] } := by
  decide

/-- C2 amended: SetTargetName faults exactly when the recorded target-name
length is nonzero; SetTargetInfo faults exactly when the recorded
target-info length is nonzero or a value fails its type assertion;
SetServerChallenge never faults (it has no repeat guard and overwrites). -/
theorem single_shot_guards_C2 (cm : ChallengeMsg) (t : List Nat)
    (ti : List (String × AVValue)) (ch : Option (List Nat)) (r : List Nat) :
    (setTargetName cm t = none ↔ cm.TargetNameLen ≠ 0) ∧
    (setTargetInfo cm ti = none ↔
      (cm.TargetInfoLen ≠ 0 ∨ encodeAVEntries ti = none)) ∧
    (setServerChallenge cm ch r).isSome = true := by
  refine ⟨?_, ?_, ?_⟩
  · unfold setTargetName
    split
    · simp_all
    · split <;> simp_all
  · unfold setTargetInfo
    split
    · simp_all
    · simp_all [Option.map_eq_none']
  · cases ch <;> simp [setServerChallenge]

/-- C5 counterexample: decoding a 50-byte buffer with a 2-byte target-name
payload leaves the cursor at 48, not past the decoded payload (48 + 2). -/
theorem unMarshal_cursor_C5_cex :
    (unMarshal [78, 84, 76, 77, 83, 83, 80, 0, 2, 0, 0, 0, 2, 0, 2, 0,
        48, 0, 0, 0, 0, 0, 0, 0, 0, 0, 0, 0, 0, 0, 0, 0, 0, 0, 0, 0,
        0, 0, 0, 0, 0, 0, 0, 0, 0, 0, 0, 0, 65, 66]).map
      (fun m => (m.offset, m.Payload.length)) = some (48, 2) ∧
    (48 : Nat) ≠ 48 + 2 := by
  decide

/-- C5 amended: after decoding any byte buffer the cursor is set to 48, the
start of the payload region, regardless of the decoded payload length
(type2.go line 110). -/
theorem unMarshal_cursor_C5 (bs : List Nat) (m : ChallengeMsg)
    (h : unMarshal bs = some m) : m.offset = 48 := by
  unfold unMarshal at h
  split at h
  · exact absurd h (by simp)
  split at h
  · exact absurd h (by simp)
  simp only [Option.some.injEq] at h
  subst h
  rfl

/-- C5 witness: the amended theorem applied to the all-zero 48-byte buffer. -/
theorem unMarshal_cursor_C5_w :
    ({ Signature := [0, 0, 0, 0, 0, 0, 0, 0], MessageType := 0,
       TargetNameLen := 0, TargetNameMaxLen := 0, TargetNameBufferOffset := 0,
       NegotiateFlags := 0, ServerChallenge := [0, 0, 0, 0, 0, 0, 0, 0],
       Reserved := [0, 0, 0, 0, 0, 0, 0, 0], TargetInfoLen := 0,
       TargetInfoMaxLen := 0, TargetInfoBufferOffset := 0, Payload := [],
       offset := 48 } : ChallengeMsg).offset = 48 :=
  unMarshal_cursor_C5 (List.replicate 48 0) _ (by decide)

/-- C4: decode faults (returns no message) exactly on truncated input:
input shorter than 48 bytes, or shorter than 48 plus the payload length
computed from the header; any input of sufficient length decodes
successfully. -/
theorem unMarshal_truncation_C4 (bs : List Nat) :
    (bs.length < 48 → unMarshal bs = none) ∧
    (unMarshal bs = none ↔ bs.length < 48 + headerPlen bs) ∧
    (48 + headerPlen bs ≤ bs.length → (unMarshal bs).isSome = true) := by
  refine ⟨?_, ?_, ?_⟩
  · intro h
    unfold unMarshal
    rw [if_pos h]
  · unfold unMarshal
    by_cases h48 : bs.length < 48
    · rw [if_pos h48]
      simp
      omega
    · rw [if_neg h48]
      by_cases hpl : bs.length < 48 + headerPlen bs
      · rw [if_pos hpl]
        simp [hpl]
      · rw [if_neg hpl]
        simp [hpl]
  · intro h
    unfold unMarshal
    rw [if_neg (by omega), if_neg (by omega)]
    rfl

/-- C4 witness: a 10-byte input faults; the all-zero 48-byte input (whose
computed payload length is 0) decodes successfully. -/
theorem unMarshal_truncation_C4_w :
    unMarshal (List.replicate 10 0) = none ∧
    (unMarshal (List.replicate 48 0)).isSome = true :=
  ⟨(unMarshal_truncation_C4 (List.replicate 10 0)).1 (by decide),
   (unMarshal_truncation_C4 (List.replicate 48 0)).2.2 (by decide)⟩

/-- Field-level characterization of a successful SetTargetName call. -/
theorem setTargetName_some (cm : ChallengeMsg) (t : List Nat) (m : ChallengeMsg)
    (h : setTargetName cm t = some m) :
    m.TargetNameBufferOffset = cm.offset ∧
    m.TargetNameLen < 65536 ∧
    m.TargetNameMaxLen = m.TargetNameLen ∧
    m.offset = (cm.offset + m.TargetNameLen) % 4294967296 ∧
    m.TargetInfoLen = cm.TargetInfoLen ∧
    m.TargetInfoBufferOffset = cm.TargetInfoBufferOffset ∧
    m.NegotiateFlags = cm.NegotiateFlags ∧
    cm.TargetNameLen = 0 := by
  unfold setTargetName at h
  split at h
  · exact absurd h (by simp)
  split at h <;>
  · simp only [Option.some.injEq] at h
    subst h
    refine ⟨rfl, Nat.mod_lt _ (by norm_num), rfl, rfl, rfl, rfl, rfl, by omega⟩

/-- Field-level characterization of a successful SetTargetInfo call. -/
theorem setTargetInfo_some (cm : ChallengeMsg) (ti : List (String × AVValue))
    (m : ChallengeMsg) (h : setTargetInfo cm ti = some m) :
    m.TargetInfoBufferOffset = cm.offset ∧
    m.TargetInfoLen < 65536 ∧
    m.TargetInfoMaxLen = m.TargetInfoLen ∧
    m.offset = (cm.offset + m.TargetInfoLen) % 4294967296 ∧
    m.TargetNameLen = cm.TargetNameLen ∧
    m.TargetNameBufferOffset = cm.TargetNameBufferOffset ∧
    cm.TargetInfoLen = 0 := by
  unfold setTargetInfo at h
  split at h
  · exact absurd h (by simp)
  obtain ⟨body, hb, hm⟩ := Option.map_eq_some'.mp h
  subst hm
  refine ⟨rfl, Nat.mod_lt _ (by norm_num), rfl, rfl, rfl, rfl, by omega⟩

/-- C3 counterexample: SetTargetName with the empty byte string records
length 0 but offset 48 (the cursor), violating the
length-zero-iff-offset-zero invariant. -/
theorem lenOffInv_empty_name_C3_cex :
    (setTargetName emptyChallengeMsg []).map
      (fun m => (m.TargetNameLen, m.TargetNameBufferOffset)) = some (0, 48) ∧
    ¬ lenOffInv 0 48 := by
  decide

/-- C3 amended: the invariant holds after empty construction; after
SetTargetName (on any instance with nonzero cursor) it holds exactly when
the recorded target-name length is nonzero — SetTargetName with an empty
input records length 0 with offset = cursor, breaking it; after
SetTargetInfo it holds exactly when the recorded target-info length is
nonzero (with the 4-byte terminator this is nonzero except for degenerate
64KiB-multiple encodings); decode copies the four header fields verbatim
from the input, so it preserves whatever relation the input header has. -/
theorem lenOffInv_ops_C3 :
    (lenOffInv emptyChallengeMsg.TargetNameLen
        emptyChallengeMsg.TargetNameBufferOffset ∧
     lenOffInv emptyChallengeMsg.TargetInfoLen
        emptyChallengeMsg.TargetInfoBufferOffset) ∧
    (∀ cm t m, setTargetName cm t = some m → cm.offset ≠ 0 →
      (lenOffInv m.TargetNameLen m.TargetNameBufferOffset ↔
        m.TargetNameLen ≠ 0)) ∧
    (∀ cm ti m, setTargetInfo cm ti = some m → cm.offset ≠ 0 →
      (lenOffInv m.TargetInfoLen m.TargetInfoBufferOffset ↔
        m.TargetInfoLen ≠ 0)) ∧
    (∀ bs m, unMarshal bs = some m →
      m.TargetNameLen = bytes2Uint ((bs.drop 12).take 2) '<' ∧
      m.TargetNameBufferOffset = bytes2Uint ((bs.drop 16).take 4) '<' ∧
      m.TargetInfoLen = bytes2Uint ((bs.drop 40).take 2) '<' ∧
      m.TargetInfoBufferOffset = bytes2Uint ((bs.drop 44).take 4) '<') := by
  refine ⟨by decide, ?_, ?_, ?_⟩
  · intro cm t m h hoff
    obtain ⟨ho, -, -, -, -, -, -, -⟩ := setTargetName_some cm t m h
    simp [lenOffInv, ho, hoff]
  · intro cm ti m h hoff
    obtain ⟨ho, -, -, -, -, -, -⟩ := setTargetInfo_some cm ti m h
    simp [lenOffInv, ho, hoff]
  · intro bs m h
    unfold unMarshal at h
    split at h
    · exact absurd h (by simp)
    split at h
    · exact absurd h (by simp)
    simp only [Option.some.injEq] at h
    subst h
    exact ⟨rfl, rfl, rfl, rfl⟩

/-- C3 witness: the amended theorem's SetTargetName clause applied to a
one-byte name set on the empty message. -/
theorem lenOffInv_ops_C3_w :
    lenOffInv 1 48 ↔ (1 : Nat) ≠ 0 :=
  lenOffInv_ops_C3.2.1 emptyChallengeMsg [65]
    { Signature := [78, 84, 76, 77, 83, 83, 80, 0], MessageType := 2,
      TargetNameLen := 1, TargetNameMaxLen := 1, TargetNameBufferOffset := 48,
      NegotiateFlags := 0, ServerChallenge := [0, 0, 0, 0, 0, 0, 0, 0],
      Reserved := [0, 0, 0, 0, 0, 0, 0, 0], TargetInfoLen := 0,
      TargetInfoMaxLen := 0, TargetInfoBufferOffset := 0, Payload := [65],
      offset := 49 }
    (by decide) (by decide)

/-- C9 counterexample: on a fresh message, setting an empty target name and
then target info gives both fields offset 48 — the offsets are equal, not
strictly increasing. -/
theorem offsets_strict_C9_cex :
    ((setTargetName emptyChallengeMsg []).bind
        (fun m1 => setTargetInfo m1 [])).map
      (fun m2 => (m2.TargetNameBufferOffset, m2.TargetInfoBufferOffset)) =
      some (48, 48) ∧ ¬ (48 : Nat) < 48 := by
  decide

/-- C9 amended: when both setters run (in either order, cursor starting at
least 48 and far from the 32-bit wrap), the second offset equals the first
offset plus the first recorded length, so the offsets are strictly
increasing whenever the first-written field's recorded length is nonzero
(they are equal when it is zero, e.g. an empty target name), and the two
payload byte ranges never overlap. -/
theorem offsets_after_both_C9 (cm : ChallengeMsg) (t : List Nat)
    (ti : List (String × AVValue)) (m1 m2 m3 m4 : ChallengeMsg)
    (hoff : 48 ≤ cm.offset) (hbound : cm.offset + 131072 < 4294967296) :
    (setTargetName cm t = some m1 → setTargetInfo m1 ti = some m2 →
      m2.TargetNameBufferOffset = cm.offset ∧
      m2.TargetInfoBufferOffset = m2.TargetNameBufferOffset + m2.TargetNameLen ∧
      (m2.TargetNameLen ≠ 0 →
        m2.TargetNameBufferOffset < m2.TargetInfoBufferOffset) ∧
      rangesDisjoint (m2.TargetNameBufferOffset - 48) m2.TargetNameLen
        (m2.TargetInfoBufferOffset - 48) m2.TargetInfoLen) ∧
    (setTargetInfo cm ti = some m3 → setTargetName m3 t = some m4 →
      m4.TargetInfoBufferOffset = cm.offset ∧
      m4.TargetNameBufferOffset = m4.TargetInfoBufferOffset + m4.TargetInfoLen ∧
      (m4.TargetInfoLen ≠ 0 →
        m4.TargetInfoBufferOffset < m4.TargetNameBufferOffset) ∧
      rangesDisjoint (m4.TargetInfoBufferOffset - 48) m4.TargetInfoLen
        (m4.TargetNameBufferOffset - 48) m4.TargetNameLen) := by
  constructor
  · intro h1 h2
    obtain ⟨hA, hB, -, hD, -, -, -, -⟩ := setTargetName_some cm t m1 h1
    obtain ⟨gA, gB, -, -, gE, gF, -⟩ := setTargetInfo_some m1 ti m2 h2
    have hmod : (cm.offset + m1.TargetNameLen) % 4294967296 =
        cm.offset + m1.TargetNameLen := Nat.mod_eq_of_lt (by omega)
    unfold rangesDisjoint
    refine ⟨by omega, by omega, fun hne => by omega, Or.inl (by omega)⟩
  · intro h3 h4
    obtain ⟨hA, hB, -, hD, -, -, -⟩ := setTargetInfo_some cm ti m3 h3
    obtain ⟨gA, gB, -, -, gE, gF, -, -⟩ := setTargetName_some m3 t m4 h4
    have hmod : (cm.offset + m3.TargetInfoLen) % 4294967296 =
        cm.offset + m3.TargetInfoLen := Nat.mod_eq_of_lt (by omega)
    unfold rangesDisjoint
    refine ⟨by omega, by omega, fun hne => by omega, Or.inl (by omega)⟩

/-- C9 witness: name-then-info on the fresh message with a one-byte name:
offsets 48 and 49 = 48 + 1, strictly increasing, ranges disjoint. -/
theorem offsets_after_both_C9_w :
    (48 : Nat) = 48 ∧ (49 : Nat) = 48 + 1 ∧ ((1 : Nat) ≠ 0 → (48 : Nat) < 49) ∧
    rangesDisjoint (48 - 48) 1 (49 - 48) 4 :=
  (offsets_after_both_C9 emptyChallengeMsg [65] []
    { Signature := [78, 84, 76, 77, 83, 83, 80, 0], MessageType := 2,
      TargetNameLen := 1, TargetNameMaxLen := 1, TargetNameBufferOffset := 48,
      NegotiateFlags := 0, ServerChallenge := [0, 0, 0, 0, 0, 0, 0, 0],
      Reserved := [0, 0, 0, 0, 0, 0, 0, 0], TargetInfoLen := 0,
      TargetInfoMaxLen := 0, TargetInfoBufferOffset := 0, Payload := [65],
      offset := 49 }
    { Signature := [78, 84, 76, 77, 83, 83, 80, 0], MessageType := 2,
      TargetNameLen := 1, TargetNameMaxLen := 1, TargetNameBufferOffset := 48,
      NegotiateFlags := 8388608, ServerChallenge := [0, 0, 0, 0, 0, 0, 0, 0],
      Reserved := [0, 0, 0, 0, 0, 0, 0, 0], TargetInfoLen := 4,
      TargetInfoMaxLen := 4, TargetInfoBufferOffset := 49,
      Payload := [65, 0, 0, 0, 0], offset := 53 }
    emptyChallengeMsg emptyChallengeMsg (by decide) (by decide)).1
    (by decide) (by decide)

/-- The unicode branch of SetTargetName as an equation. -/
theorem setTargetName_unicode_eq (cm : ChallengeMsg) (b : List Nat)
    (hg : cm.TargetNameLen = 0)
    (hu : cm.NegotiateFlags &&& NEGOTIATE_UNICODE_CHARSET ≠ 0) :
    setTargetName cm b = some { cm with
      TargetNameLen := 2 * b.length % 65536
      TargetNameMaxLen := 2 * b.length % 65536
      TargetNameBufferOffset := cm.offset
      Payload := cm.Payload ++ encodeUTF16LE b
      offset := (cm.offset + 2 * b.length % 65536) % 4294967296 } := by
  unfold setTargetName
  rw [if_neg (by simp [hg]), if_pos hu]

/-- C7 counterexample: with the unicode flag set, SetTargetName on a 32768-
byte input records target-name length 0 (uint16 truncation of 65536), not
2·len(b). -/
theorem setTargetName_truncation_C7_cex :
    (setTargetName { emptyChallengeMsg with NegotiateFlags := 1 }
        (List.replicate 32768 0)).map (fun m => m.TargetNameLen) = some 0 ∧
    2 * (List.replicate 32768 (0 : Nat)).length = 65536 ∧ (0 : Nat) ≠ 65536 := by
  have h := setTargetName_unicode_eq { emptyChallengeMsg with NegotiateFlags := 1 }
    (List.replicate 32768 0) (by decide) (by decide)
  rw [h]
  refine ⟨?_, by rw [List.length_replicate], by decide⟩
  simp only [Option.map_some', List.length_replicate]

/-- C7 amended: with the unicode flag set, a successful SetTargetName
records targetNameLen = 2·len(b) mod 2^16 (equal to 2·len(b) whenever
len(b) < 32768), maxLength = length, offset = the cursor before the call,
appends the UTF-16LE encoding of b, and advances the cursor by the
recorded (truncated) length modulo 2^32. -/
theorem setTargetName_unicode_C7 (cm : ChallengeMsg) (b : List Nat)
    (m : ChallengeMsg) (hu : cm.NegotiateFlags &&& NEGOTIATE_UNICODE_CHARSET ≠ 0)
    (h : setTargetName cm b = some m) :
    m.TargetNameLen = 2 * b.length % 65536 ∧
    m.TargetNameMaxLen = m.TargetNameLen ∧
    m.TargetNameBufferOffset = cm.offset ∧
    m.Payload = cm.Payload ++ encodeUTF16LE b ∧
    m.offset = (cm.offset + 2 * b.length % 65536) % 4294967296 := by
  unfold setTargetName at h
  split at h
  · exact absurd h (by simp)
  simp only [Option.some.injEq] at h
  subst h
  exact ⟨rfl, rfl, rfl, rfl, rfl⟩

/-- C7 witness: the scenario of the claim — unicode flag set, target name
DOMAIN: recorded length 12 = 2·6, offset 48, payload the UTF-16LE bytes. -/
theorem setTargetName_unicode_C7_w :
    (12 : Nat) = 2 * [68, 79, 77, 65, 73, 78].length % 65536 ∧
    (12 : Nat) = 12 ∧ (48 : Nat) = 48 ∧
    ([68, 0, 79, 0, 77, 0, 65, 0, 73, 0, 78, 0] : List Nat) =
      [] ++ encodeUTF16LE [68, 79, 77, 65, 73, 78] ∧
    (60 : Nat) = (48 + 2 * [68, 79, 77, 65, 73, 78].length % 65536) % 4294967296 :=
  setTargetName_unicode_C7 { emptyChallengeMsg with NegotiateFlags := 1 }
    [68, 79, 77, 65, 73, 78]
    { Signature := [78, 84, 76, 77, 83, 83, 80, 0], MessageType := 2,
      TargetNameLen := 12, TargetNameMaxLen := 12, TargetNameBufferOffset := 48,
      NegotiateFlags := 1, ServerChallenge := [0, 0, 0, 0, 0, 0, 0, 0],
      Reserved := [0, 0, 0, 0, 0, 0, 0, 0], TargetInfoLen := 0,
      TargetInfoMaxLen := 0, TargetInfoBufferOffset := 0,
      Payload := [68, 0, 79, 0, 77, 0, 65, 0, 73, 0, 78, 0], offset := 60 }
    (by decide) (by decide)

/-- Well-typedness of one mapping entry: a known text identifier carries a
string value, a known raw identifier (6, 7, 8, 10) carries a byte value;
entries with unknown keys are unconstrained (they are skipped). -/
def wtPair : String × AVValue → Bool
  | (k, v) =>
    if avIdsRev k = 0 then true
    else if avIdsRev k = 6 ∨ avIdsRev k = 7 ∨ avIdsRev k = 8 ∨ avIdsRev k = 10 then
      match v with
      | AVValue.vbytes _ => true
      | AVValue.vstr _ => false
    else
      match v with
      | AVValue.vstr _ => true
      | AVValue.vbytes _ => false

/-- The bytes the specification says one mapping entry contributes: nothing
for an unknown key; otherwise the 2-byte identifier, the 2-byte
little-endian length, and the value bytes — raw values verbatim, text
values re-encoded UTF-16LE with doubled length. -/
def specEmitAV (p : String × AVValue) : List Nat :=
  if avIdsRev p.1 = 0 then []
  else if avIdsRev p.1 = 6 ∨ avIdsRev p.1 = 7 ∨ avIdsRev p.1 = 8 ∨
      avIdsRev p.1 = 10 then
    match p.2 with
    | AVValue.vbytes b => avIdsRev p.1 :: 0 :: (u16le b.length ++ b)
    | AVValue.vstr _ => []
  else
    match p.2 with
    | AVValue.vstr s =>
      avIdsRev p.1 :: 0 :: (u16le (2 * s.length) ++ encodeUTF16LE s)
    | AVValue.vbytes _ => []

/-- The specification's target-info body: the per-entry emissions in
mapping order (the terminator is appended separately). -/
def specEncodeAVBody (l : List (String × AVValue)) : List Nat :=
  l.foldr (fun p acc => specEmitAV p ++ acc) []

/-- The code's encoding loop agrees with the specification's per-entry
description on every well-typed mapping. -/
theorem encodeAVEntries_eq_spec (l : List (String × AVValue))
    (h : l.all wtPair = true) :
    encodeAVEntries l = some (specEncodeAVBody l) := by
  induction l with
  | nil => rfl
  | cons p rest ih =>
    obtain ⟨k, v⟩ := p
    simp only [List.all_cons, Bool.and_eq_true] at h
    obtain ⟨hp, hrest⟩ := h
    have ihr := ih hrest
    by_cases h0 : avIdsRev k = 0
    · simp [encodeAVEntries, specEncodeAVBody, specEmitAV, h0, ihr]
    · by_cases hraw : avIdsRev k = 6 ∨ avIdsRev k = 7 ∨ avIdsRev k = 8 ∨
          avIdsRev k = 10
      · have hcond : ¬(avIdsRev k ≠ 6 ∧ avIdsRev k ≠ 7 ∧ avIdsRev k ≠ 8 ∧
            avIdsRev k ≠ 10) := by tauto
        cases v with
        | vbytes b =>
          simp [encodeAVEntries, specEncodeAVBody, specEmitAV, h0, hraw, hcond,
            ihr, u16le]
        | vstr s => simp [wtPair, h0, hraw] at hp
      · have hcond : avIdsRev k ≠ 6 ∧ avIdsRev k ≠ 7 ∧ avIdsRev k ≠ 8 ∧
            avIdsRev k ≠ 10 := by tauto
        cases v with
        | vstr s =>
          simp [encodeAVEntries, specEncodeAVBody, specEmitAV, h0, hraw, hcond,
            ihr, u16le]
        | vbytes b => simp [wtPair, h0, hraw] at hp

/-- A successful SetTargetInfo on a well-typed mapping, as an equation. -/
theorem setTargetInfo_eq (cm : ChallengeMsg) (ti : List (String × AVValue))
    (hg : cm.TargetInfoLen = 0) (hwt : ti.all wtPair = true) :
    setTargetInfo cm ti = some { cm with
      NegotiateFlags := cm.NegotiateFlags ||| NEGOTIATE_TARGET_INFO
      TargetInfoLen := (specEncodeAVBody ti ++ [0, 0, 0, 0]).length % 65536
      TargetInfoMaxLen := (specEncodeAVBody ti ++ [0, 0, 0, 0]).length % 65536
      TargetInfoBufferOffset := cm.offset
      Payload := cm.Payload ++ (specEncodeAVBody ti ++ [0, 0, 0, 0])
      offset := (cm.offset +
        (specEncodeAVBody ti ++ [0, 0, 0, 0]).length % 65536) % 4294967296 } := by
  unfold setTargetInfo
  rw [if_neg (by simp [hg]), encodeAVEntries_eq_spec ti hwt]
  rfl

/-- C8: on every well-typed mapping, a successful SetTargetInfo appends to
the payload exactly the per-entry emissions of the specification (2-byte
identifier, 2-byte little-endian length, value bytes — text re-encoded
UTF-16LE, raw identifiers 6/7/8/10 verbatim) followed by the zero/zero
terminator, and every entry with an unknown key contributes nothing. -/
theorem setTargetInfo_encoding_C8 (cm : ChallengeMsg)
    (ti : List (String × AVValue)) (m : ChallengeMsg)
    (hwt : ti.all wtPair = true) (h : setTargetInfo cm ti = some m) :
    m.Payload = cm.Payload ++ specEncodeAVBody ti ++ [0, 0, 0, 0] ∧
    m.TargetInfoLen = (specEncodeAVBody ti ++ [0, 0, 0, 0]).length % 65536 ∧
    m.TargetInfoMaxLen = m.TargetInfoLen ∧
    m.TargetInfoBufferOffset = cm.offset ∧
    (∀ p ∈ ti, avIdsRev p.1 = 0 → specEmitAV p = []) := by
  have hg : cm.TargetInfoLen = 0 := (setTargetInfo_some cm ti m h).2.2.2.2.2.2
  rw [setTargetInfo_eq cm ti hg hwt] at h
  simp only [Option.some.injEq] at h
  subst h
  refine ⟨by simp, rfl, rfl, rfl, ?_⟩
  intro p hp h0
  simp [specEmitAV, h0]

/-- C8 witness: a mapping with a known text key, an unknown key and a known
raw key; the payload is the two emissions plus terminator, the unknown key
contributes nothing. -/
theorem setTargetInfo_encoding_C8_w :
    ([1, 0, 4, 0, 68, 0, 79, 0, 6, 0, 4, 0, 1, 2, 3, 4, 0, 0, 0, 0] : List Nat) =
      emptyChallengeMsg.Payload ++
        specEncodeAVBody [("MsvAvNbDomainName", AVValue.vstr [68, 79]),
          ("bogus", AVValue.vstr [1]), ("MsvAvFlags", AVValue.vbytes [1, 2, 3, 4])] ++
        [0, 0, 0, 0] :=
  (setTargetInfo_encoding_C8 emptyChallengeMsg
    [("MsvAvNbDomainName", AVValue.vstr [68, 79]),
     ("bogus", AVValue.vstr [1]), ("MsvAvFlags", AVValue.vbytes [1, 2, 3, 4])]
    { Signature := [78, 84, 76, 77, 83, 83, 80, 0], MessageType := 2,
      TargetNameLen := 0, TargetNameMaxLen := 0, TargetNameBufferOffset := 0,
      NegotiateFlags := 8388608, ServerChallenge := [0, 0, 0, 0, 0, 0, 0, 0],
      Reserved := [0, 0, 0, 0, 0, 0, 0, 0], TargetInfoLen := 20,
      TargetInfoMaxLen := 20, TargetInfoBufferOffset := 48,
      Payload := [1, 0, 4, 0, 68, 0, 79, 0, 6, 0, 4, 0, 1, 2, 3, 4, 0, 0, 0, 0],
      offset := 68 }
    (by decide) (by decide)).1

set_option maxHeartbeats 1600000 in
/-- C6: for every well-formed message the big-endian encoding differs from
the little-endian encoding exactly by byte-reversing the integer fields —
message type (bytes 8-11), the target-name triple (12-19), negotiate flags
(20-23), the target-info triple (40-47) — while the signature (0-7), server
challenge and reserved block (24-39) and the appended payload (48-) are
byte-for-byte identical. -/
theorem marshal_bigendian_C6 (m : ChallengeMsg) (h : m.WF) :
    (marshal m '>').take 8 = (marshal m '<').take 8 ∧
    ((marshal m '>').drop 8).take 4 = (((marshal m '<').drop 8).take 4).reverse ∧
    ((marshal m '>').drop 12).take 2 = (((marshal m '<').drop 12).take 2).reverse ∧
    ((marshal m '>').drop 14).take 2 = (((marshal m '<').drop 14).take 2).reverse ∧
    ((marshal m '>').drop 16).take 4 = (((marshal m '<').drop 16).take 4).reverse ∧
    ((marshal m '>').drop 20).take 4 = (((marshal m '<').drop 20).take 4).reverse ∧
    ((marshal m '>').drop 24).take 16 = ((marshal m '<').drop 24).take 16 ∧
    ((marshal m '>').drop 40).take 2 = (((marshal m '<').drop 40).take 2).reverse ∧
    ((marshal m '>').drop 42).take 2 = (((marshal m '<').drop 42).take 2).reverse ∧
    ((marshal m '>').drop 44).take 4 = (((marshal m '<').drop 44).take 4).reverse ∧
    (marshal m '>').drop 48 = (marshal m '<').drop 48 := by
  obtain ⟨sig, mt, tnl, tnml, tno, fl, ch, rs, til, timl, tio, pl, off⟩ := m
  unfold ChallengeMsg.WF at h
  obtain ⟨h1, h2, h3, -, -, -, -, -, -, -, -⟩ := h
  obtain ⟨s0, s1, s2, s3, s4, s5, s6, s7, hs⟩ := eight_struct sig h1
  obtain ⟨c0, c1, c2, c3, c4, c5, c6, c7, hc⟩ := eight_struct ch h2
  obtain ⟨r0, r1, r2, r3, r4, r5, r6, r7, hr⟩ := eight_struct rs h3
  subst hs
  subst hc
  subst hr
  exact ⟨rfl, u32le_rev32 mt, u16le_rev16 tnl, u16le_rev16 tnml,
    u32le_rev32 tno, u32le_rev32 fl, rfl, u16le_rev16 til, u16le_rev16 timl,
    u32le_rev32 tio, rfl⟩

/-- C6 witness: the theorem applied to the empty message with a marker
message type. -/
theorem marshal_bigendian_C6_w :
    ((marshal { emptyChallengeMsg with MessageType := 513 } '>').drop 8).take 4 =
      (((marshal { emptyChallengeMsg with MessageType := 513 } '<').drop 8).take 4).reverse :=
  (marshal_bigendian_C6 { emptyChallengeMsg with MessageType := 513 }
    (by decide)).2.1

set_option maxHeartbeats 1600000 in
/-- The little-endian wire image decomposed: each header field occupies its
documented byte range and the payload follows at 48. -/
theorem marshal_le_segments (m : ChallengeMsg) (h : m.WF) :
    (marshal m '<').take 8 = m.Signature ∧
    ((marshal m '<').drop 8).take 4 = u32le m.MessageType ∧
    ((marshal m '<').drop 12).take 2 = u16le m.TargetNameLen ∧
    ((marshal m '<').drop 14).take 2 = u16le m.TargetNameMaxLen ∧
    ((marshal m '<').drop 16).take 4 = u32le m.TargetNameBufferOffset ∧
    ((marshal m '<').drop 20).take 4 = u32le m.NegotiateFlags ∧
    ((marshal m '<').drop 24).take 8 = m.ServerChallenge ∧
    ((marshal m '<').drop 32).take 8 = m.Reserved ∧
    ((marshal m '<').drop 40).take 2 = u16le m.TargetInfoLen ∧
    ((marshal m '<').drop 42).take 2 = u16le m.TargetInfoMaxLen ∧
    ((marshal m '<').drop 44).take 4 = u32le m.TargetInfoBufferOffset ∧
    (marshal m '<').drop 48 = m.Payload ∧
    (marshal m '<').length = m.Payload.length + 48 := by
  obtain ⟨sig, mt, tnl, tnml, tno, fl, ch, rs, til, timl, tio, pl, off⟩ := m
  unfold ChallengeMsg.WF at h
  obtain ⟨h1, h2, h3, -, -, -, -, -, -, -, -⟩ := h
  obtain ⟨s0, s1, s2, s3, s4, s5, s6, s7, hs⟩ := eight_struct sig h1
  obtain ⟨c0, c1, c2, c3, c4, c5, c6, c7, hc⟩ := eight_struct ch h2
  obtain ⟨r0, r1, r2, r3, r4, r5, r6, r7, hr⟩ := eight_struct rs h3
  subst hs
  subst hc
  subst hr
  refine ⟨rfl, rfl, rfl, rfl, rfl, rfl, rfl, rfl, rfl, rfl, rfl, rfl, ?_⟩
  simp [marshal, marshalFields, u16le, u32le]

/-- C1 counterexample: a constructed message with consistent fields (one
UTF-16LE target name, payload length matching the header) does not decode
back to itself from its little-endian encoding: its cursor is 50 but
decode sets the cursor to 48. -/
theorem roundtrip_cursor_C1_cex :
    setTargetName { emptyChallengeMsg with NegotiateFlags := 1 } [65] =
      some { Signature := [78, 84, 76, 77, 83, 83, 80, 0], MessageType := 2,
             TargetNameLen := 2, TargetNameMaxLen := 2,
             TargetNameBufferOffset := 48, NegotiateFlags := 1,
             ServerChallenge := [0, 0, 0, 0, 0, 0, 0, 0],
             Reserved := [0, 0, 0, 0, 0, 0, 0, 0], TargetInfoLen := 0,
             TargetInfoMaxLen := 0, TargetInfoBufferOffset := 0,
             Payload := [65, 0], offset := 50 } ∧
    unMarshal (marshal
      { Signature := [78, 84, 76, 77, 83, 83, 80, 0], MessageType := 2,
        TargetNameLen := 2, TargetNameMaxLen := 2, TargetNameBufferOffset := 48,
        NegotiateFlags := 1, ServerChallenge := [0, 0, 0, 0, 0, 0, 0, 0],
        Reserved := [0, 0, 0, 0, 0, 0, 0, 0], TargetInfoLen := 0,
        TargetInfoMaxLen := 0, TargetInfoBufferOffset := 0,
        Payload := [65, 0], offset := 50 } '<') ≠
      some { Signature := [78, 84, 76, 77, 83, 83, 80, 0], MessageType := 2,
             TargetNameLen := 2, TargetNameMaxLen := 2,
             TargetNameBufferOffset := 48, NegotiateFlags := 1,
             ServerChallenge := [0, 0, 0, 0, 0, 0, 0, 0],
             Reserved := [0, 0, 0, 0, 0, 0, 0, 0], TargetInfoLen := 0,
             TargetInfoMaxLen := 0, TargetInfoBufferOffset := 0,
             Payload := [65, 0], offset := 50 } := by
  decide

/-- C1 amended: for every well-formed message whose payload length matches
the length decode computes from its header (the consistency produced by
construction or decode), decoding the little-endian encoding restores every
wire field and the payload exactly; the internal cursor, however, is set to
48 rather than restored. -/
theorem roundtrip_le_C1 (m : ChallengeMsg) (hwf : m.WF)
    (hp : m.Payload.length = expectedPlen m) :
    unMarshal (marshal m '<') = some { m with offset := 48 } := by
  have hseg := marshal_le_segments m hwf
  unfold ChallengeMsg.WF at hwf
  obtain ⟨-, -, -, h4, h5, h6, h7, h8, h9, h10, h11⟩ := hwf
  obtain ⟨e0, e8, e12, e14, e16, e20, e24, e32, e40, e42, e44, e48, elen⟩ := hseg
  have hplen : headerPlen (marshal m '<') = expectedPlen m := by
    unfold headerPlen expectedPlen
    simp only [e12, e16, e20, e40, e44, bytes2Uint_u16le, bytes2Uint_u32le,
      Nat.mod_eq_of_lt h5, Nat.mod_eq_of_lt h6, Nat.mod_eq_of_lt h8,
      Nat.mod_eq_of_lt h9, Nat.mod_eq_of_lt h11]
  unfold unMarshal
  rw [if_neg (by rw [elen]; omega),
    if_neg (by rw [elen, hplen, ← hp]; omega)]
  simp only [Option.some.injEq, ChallengeMsg.mk.injEq]
  refine ⟨e0, ?_, ?_, ?_, ?_, ?_, e24, e32, ?_, ?_, ?_, ?_, rfl⟩
  · rw [e8, bytes2Uint_u32le]
    exact Nat.mod_eq_of_lt h4
  · rw [e12, bytes2Uint_u16le]
    exact Nat.mod_eq_of_lt h6
  · rw [e14, bytes2Uint_u16le]
    exact Nat.mod_eq_of_lt h7
  · rw [e16, bytes2Uint_u32le]
    exact Nat.mod_eq_of_lt h8
  · rw [e20, bytes2Uint_u32le]
    exact Nat.mod_eq_of_lt h5
  · rw [e40, bytes2Uint_u16le]
    exact Nat.mod_eq_of_lt h9
  · rw [e42, bytes2Uint_u16le]
    exact Nat.mod_eq_of_lt h10
  · rw [e44, bytes2Uint_u32le]
    exact Nat.mod_eq_of_lt h11
  · rw [hplen, e48, ← hp]
    exact List.take_length _

/-- C1 witness: the amended round trip on a concrete constructed message
with a unicode target name. -/
theorem roundtrip_le_C1_w :
    unMarshal (marshal
      { Signature := [78, 84, 76, 77, 83, 83, 80, 0], MessageType := 2,
        TargetNameLen := 2, TargetNameMaxLen := 2, TargetNameBufferOffset := 48,
        NegotiateFlags := 1, ServerChallenge := [0, 0, 0, 0, 0, 0, 0, 0],
        Reserved := [0, 0, 0, 0, 0, 0, 0, 0], TargetInfoLen := 0,
        TargetInfoMaxLen := 0, TargetInfoBufferOffset := 0,
        Payload := [65, 0], offset := 50 } '<') =
    some { Signature := [78, 84, 76, 77, 83, 83, 80, 0], MessageType := 2,
           TargetNameLen := 2, TargetNameMaxLen := 2,
           TargetNameBufferOffset := 48, NegotiateFlags := 1,
           ServerChallenge := [0, 0, 0, 0, 0, 0, 0, 0],
           Reserved := [0, 0, 0, 0, 0, 0, 0, 0], TargetInfoLen := 0,
           TargetInfoMaxLen := 0, TargetInfoBufferOffset := 0,
           Payload := [65, 0], offset := 48 } :=
  roundtrip_le_C1
    { Signature := [78, 84, 76, 77, 83, 83, 80, 0], MessageType := 2,
      TargetNameLen := 2, TargetNameMaxLen := 2, TargetNameBufferOffset := 48,
      NegotiateFlags := 1, ServerChallenge := [0, 0, 0, 0, 0, 0, 0, 0],
      Reserved := [0, 0, 0, 0, 0, 0, 0, 0], TargetInfoLen := 0,
      TargetInfoMaxLen := 0, TargetInfoBufferOffset := 0,
      Payload := [65, 0], offset := 50 }
    (by decide) (by decide)

end Ntlmssp
